import Mathlib

/-!
Shallow embedding of the generation-queue and job-lifecycle engine of the
Gemini Image Studio Pro front-end (App component, ReferenceImagePanel,
GenerationPanel, geminiService) together with proofs of the specified
properties of the queue processor, staging buffer and gallery store.
-/

namespace NanoBanana

/-- Aspect ratios offered by the generation panel (source: type AspectRatio). -/
inductive AspectRatio
  | r1x1
  | r16x9
  | r9x16
  | r4x3
  | r3x4
  deriving DecidableEq

/-- Job lifecycle statuses (source: the status union type of interface Job). -/
inductive JobStatus
  | pending
  | processing
  | completed
  | failed
  deriving DecidableEq

/-- A queued generation request (source: interface Job in the App component).
Ids are modelled as naturals drawn from a fresh counter, standing for the
unique strings produced by crypto.randomUUID(). -/
structure Job where
  id : Nat
  prompt : String
  referenceImages : List String
  aspectRatio : AspectRatio
  status : JobStatus
  error : Option String
  deriving DecidableEq

/-- A gallery entry (source: interface GalleryItem in the App component). -/
structure GalleryItem where
  id : Nat
  src : String
  prompt : String
  deriving DecidableEq

/-- The state held by the App component: the staged reference images, the job
queue, the gallery, the modal selection, the isProcessingRef busy flag, and the
fresh-id counter modelling crypto.randomUUID(). -/
structure AppState where
  referenceImages : List String
  queue : List Job
  gallery : List GalleryItem
  selectedImage : Option GalleryItem
  busy : Bool
  nextId : Nat
  deriving DecidableEq

/-- The newJob literal built inside handleAddToQueue: a fresh id, the given
prompt and aspect ratio, the currently staged reference images, status
pending. -/
def newJob (prompt : String) (ar : AspectRatio) (s : AppState) : Job :=
  { id := s.nextId, prompt := prompt, referenceImages := s.referenceImages,
    aspectRatio := ar, status := JobStatus.pending, error := none }

/-- handleAddToQueue: build a new pending Job capturing the currently staged
reference images, append it to the queue and clear staging (source:
App.handleAddToQueue). No validation happens here. -/
def handleAddToQueue (prompt : String) (ar : AspectRatio) (s : AppState) : AppState :=
  { s with
      queue := s.queue ++ [newJob prompt ar s],
      referenceImages := [],
      nextId := s.nextId + 1 }

/-- Boolean test used by the processor to select a job. -/
def isPendingStatus : JobStatus → Bool
  | JobStatus.pending => true
  | _ => false

/-- The selection in processQueue: queue.find(j => j.status === 'pending'). -/
def nextPendingJob (q : List Job) : Option Job :=
  q.find? (fun j => isPendingStatus j.status)

/-- setQueue(prev => prev.map(j => j.id === job.id ? status 'processing' : j)). -/
def markProcessing (i : Nat) (q : List Job) : List Job :=
  q.map (fun j => if j.id = i then { j with status := JobStatus.processing } else j)

/-- The success path setQueue(prev => prev.filter(j => j.id !== job.id)). -/
def markCompleted (i : Nat) (q : List Job) : List Job :=
  q.filter (fun j => j.id != i)

/-- setQueue(prev => prev.map(j => j.id === job.id ? status 'failed' with error : j)). -/
def markFailed (i : Nat) (m : String) (q : List Job) : List Job :=
  q.map (fun j =>
    if j.id = i then { j with status := JobStatus.failed, error := some m } else j)

/-- First half of a processQueue tick that passed the admission gate: claim the
busy flag and move the selected job to processing. -/
def startJob (i : Nat) (s : AppState) : AppState :=
  { s with busy := true, queue := markProcessing i s.queue }

/-- Outcome of the awaited generateImage call: a resolved image URL, a rejection
carrying an Error with a message, or a thrown non-Error value (which the catch
clause maps to the fixed fallback message). -/
inductive Outcome
  | success (imageUrl : String)
  | failure (msg : String)
  | fault
  deriving DecidableEq

/-- Second half of a processQueue tick: fold the provider outcome into the
gallery and the queue; the finally clause clears the busy flag on every path. -/
def finishJob (job : Job) (o : Outcome) (s : AppState) : AppState :=
  match o with
  | Outcome.success url =>
      { s with
          gallery := { id := s.nextId, src := url, prompt := job.prompt } :: s.gallery,
          queue := markCompleted job.id s.queue,
          nextId := s.nextId + 1,
          busy := false }
  | Outcome.failure m =>
      { s with queue := markFailed job.id m s.queue, busy := false }
  | Outcome.fault =>
      { s with queue := markFailed job.id "Unknown error" s.queue, busy := false }

/-- The MAX_IMAGES cap of the reference image panel. -/
def MAX_IMAGES : Nat := 4

/-- handleImageUpload: slice the incoming files to the remaining capacity and
append them to staging (source: ReferenceImagePanel.handleImageUpload,
files.slice(0, MAX_IMAGES - images.length) then onImagesChange). -/
def handleImageUpload (files : List String) (images : List String) : List String :=
  images ++ files.take (MAX_IMAGES - images.length)

/-- handleRemoveImage: images.filter((x, i) => i !== index). -/
def handleRemoveImage (index : Nat) (images : List String) : List String :=
  images.eraseIdx index

/-- Staging add lifted to the App state. -/
def stageAddImages (files : List String) (s : AppState) : AppState :=
  { s with referenceImages := handleImageUpload files s.referenceImages }

/-- Staging remove lifted to the App state. -/
def stageRemoveImage (index : Nat) (s : AppState) : AppState :=
  { s with referenceImages := handleRemoveImage index s.referenceImages }

/-- The gallery update inside App.handleUpscaleImage. -/
def updateSrc (itemId : Nat) (newSrc : String) (g : List GalleryItem) : List GalleryItem :=
  g.map (fun item => if item.id = itemId then { item with src := newSrc } else item)

/-- App.handleUpscaleImage: replace the src of the matching gallery item and
keep the modal selection in sync; the job queue is not touched. -/
def handleUpscaleImage (itemId : Nat) (newSrc : String) (s : AppState) : AppState :=
  { s with
      gallery := updateSrc itemId newSrc s.gallery,
      selectedImage :=
        match s.selectedImage with
        | some it => if it.id = itemId then some { it with src := newSrc } else some it
        | none => none }

/-- The prompt.trim() of the submit guard: strip whitespace from both ends,
written structurally over the character list. -/
def trimString (p : String) : String :=
  String.mk (((p.data.dropWhile Char.isWhitespace).reverse.dropWhile
    Char.isWhitespace).reverse)

/-- GenerationPanel.handleSubmit: only a submission whose trimmed prompt is
non-empty, while no add is already in flight, reaches onAddToQueue. -/
def handleSubmit (prompt : String) (ar : AspectRatio) (isAdding : Bool)
    (s : AppState) : AppState :=
  if trimString prompt != "" && !isAdding then handleAddToQueue prompt ar s else s

/-- One entry of the contents.parts array sent to the provider; Part.image src
stands for fileToGenerativePart applied to the data URL src. -/
inductive Part
  | image (src : String)
  | text (s : String)
  deriving DecidableEq

/-- Parts built by the generateImage variant in part_001 for the multimodal
branch: every reference image, in order, followed by the text prompt. -/
def multimodalParts (prompt : String) (referenceImages : List String) : List Part :=
  referenceImages.map Part.image ++ [Part.text prompt]

/-- Parts built by the generateImage variant bundled in part_000: only the
first reference image (referenceImages[0]) is used, then the text prompt; the
branch is entered only when at least one reference image is present. -/
def multimodalPartsSingle (prompt : String) (referenceImages : List String) : List Part :=
  match referenceImages with
  | [] => []
  | r :: _ => [Part.image r, Part.text prompt]

/-- One observable transition of the App: a user enqueue, a staging edit, one
of the two halves of a processor tick, or an upscale apply. -/
inductive Step : AppState → AppState → Prop
  | enqueue (s : AppState) (prompt : String) (ar : AspectRatio) :
      Step s (handleAddToQueue prompt ar s)
  | stageAdd (s : AppState) (files : List String) : Step s (stageAddImages files s)
  | stageRemove (s : AppState) (index : Nat) : Step s (stageRemoveImage index s)
  | tickStart (s : AppState) (j : Job) (hbusy : s.busy = false)
      (hsel : nextPendingJob s.queue = some j) : Step s (startJob j.id s)
  | tickFinish (s : AppState) (j : Job) (o : Outcome) (hbusy : s.busy = true)
      (hmem : j ∈ s.queue) (hproc : j.status = JobStatus.processing) :
      Step s (finishJob j o s)
  | upscale (s : AppState) (itemId : Nat) (newSrc : String) :
      Step s (handleUpscaleImage itemId newSrc s)

/-- Initial App state on mount: empty staging and queue, gallery as loaded from
the persistence adapter. -/
def initState (g0 : List GalleryItem) : AppState :=
  { referenceImages := [], queue := [], gallery := g0, selectedImage := none,
    busy := false, nextId := 0 }

/-- States the App can reach from a fresh mount by any interleaving of steps. -/
def Reachable (s : AppState) : Prop :=
  ∃ g0, Relation.ReflTransGen Step (initState g0) s

/-- Inductive invariant of the queue engine: no processing job while the busy
flag is clear, all processing jobs share one id, a processing job exists while
the flag is held, queue ids are distinct and below the fresh counter, and no
completed job is retained in the queue. -/
def Inv (s : AppState) : Prop :=
  (s.busy = false → ∀ j ∈ s.queue, j.status ≠ JobStatus.processing) ∧
  (∀ j ∈ s.queue, ∀ k ∈ s.queue, j.status = JobStatus.processing →
    k.status = JobStatus.processing → j.id = k.id) ∧
  (s.busy = true → ∃ j ∈ s.queue, j.status = JobStatus.processing) ∧
  (s.queue.map Job.id).Nodup ∧
  (∀ j ∈ s.queue, j.id < s.nextId) ∧
  (∀ j ∈ s.queue, j.status ≠ JobStatus.completed)

/-- A concrete job used by the witness executions. -/
def exJob : Job :=
  { id := 0, prompt := "A red balloon", referenceImages := [],
    aspectRatio := AspectRatio.r1x1, status := JobStatus.pending, error := none }

/-- State after enqueueing one job from a fresh mount. -/
def exState1 : AppState := handleAddToQueue "A red balloon" AspectRatio.r1x1 (initState [])

/-- State after the first tick claims that job. -/
def exState2 : AppState := startJob 0 exState1

/-- A concrete in-flight job used by the witness executions. -/
def exProcJob : Job :=
  { id := 0, prompt := "A red balloon", referenceImages := [],
    aspectRatio := AspectRatio.r1x1, status := JobStatus.processing, error := none }

/-- A concrete waiting job used by the witness executions. -/
def exPendJob : Job :=
  { id := 1, prompt := "second", referenceImages := [],
    aspectRatio := AspectRatio.r1x1, status := JobStatus.pending, error := none }

/-- A concrete state with one job in flight and one waiting. -/
def exBusyState : AppState :=
  { referenceImages := [], queue := [exProcJob, exPendJob], gallery := [],
    selectedImage := none, busy := true, nextId := 2 }

/-- A concrete failed job used by the witness executions. -/
def exFailedJob : Job :=
  { id := 3, prompt := "first", referenceImages := [],
    aspectRatio := AspectRatio.r16x9, status := JobStatus.failed, error := some "boom" }

/-- A concrete pending job queued behind the failed one. -/
def exPendingJob : Job :=
  { id := 4, prompt := "second", referenceImages := [],
    aspectRatio := AspectRatio.r9x16, status := JobStatus.pending, error := none }

/-- A concrete queue whose earliest entry is failed and whose second entry is
the earliest pending job. -/
def exQueue : List Job := [exFailedJob, exPendingJob]

/-- The in-flight witness job after a policy-block failure is recorded. -/
def exFailedProcJob : Job :=
  { exProcJob with
      status := JobStatus.failed
      error := some "Request blocked: SAFETY." }

/-- isPendingStatus decides equality with the pending status. -/
theorem isPendingStatus_eq_true (st : JobStatus) :
    isPendingStatus st = true ↔ st = JobStatus.pending := by
  cases st <;> simp [isPendingStatus]

/-- A job returned by nextPendingJob is pending and is the earliest pending
entry: everything before it in the queue is not pending. -/
theorem nextPendingJob_spec (q : List Job) (j : Job)
    (h : nextPendingJob q = some j) :
    j.status = JobStatus.pending ∧
      ∃ l1 l2, q = l1 ++ j :: l2 ∧ ∀ x ∈ l1, x.status ≠ JobStatus.pending := by
  induction q with
  | nil => simp [nextPendingJob] at h
  | cons a as ih =>
    rw [nextPendingJob, List.find?_cons] at h
    cases hp : isPendingStatus a.status with
    | true =>
      rw [hp] at h
      obtain rfl : a = j := Option.some.inj h
      exact ⟨(isPendingStatus_eq_true _).mp hp, [], as, rfl, by simp⟩
    | false =>
      rw [hp] at h
      have h2 : nextPendingJob as = some j := h
      obtain ⟨hpend, l1, l2, hq, hall⟩ := ih h2
      refine ⟨hpend, a :: l1, l2, by rw [hq, List.cons_append], ?_⟩
      intro x hx
      rcases List.mem_cons.mp hx with rfl | hx2
      · intro hc
        rw [(isPendingStatus_eq_true _).mpr hc] at hp
        cases hp
      · exact hall x hx2

/-- A job returned by nextPendingJob belongs to the queue. -/
theorem nextPendingJob_mem (q : List Job) (j : Job)
    (h : nextPendingJob q = some j) : j ∈ q :=
  List.mem_of_find?_eq_some h

/-- In a queue whose ids are distinct, two members with the same id are the
same job. -/
theorem eq_of_mem_of_id_eq (q : List Job) (hnd : (q.map Job.id).Nodup)
    (a b : Job) (ha : a ∈ q) (hb : b ∈ q) (hid : a.id = b.id) : a = b := by
  induction q with
  | nil => cases ha
  | cons x xs ih =>
    rw [List.map_cons, List.nodup_cons] at hnd
    rcases List.mem_cons.mp ha with rfl | ha2
    · rcases List.mem_cons.mp hb with rfl | hb2
      · rfl
      · exact absurd (hid ▸ List.mem_map_of_mem Job.id hb2) hnd.1
    · rcases List.mem_cons.mp hb with rfl | hb2
      · exact absurd (hid ▸ List.mem_map_of_mem Job.id ha2) hnd.1
      · exact ih hnd.2 ha2 hb2

/-- Mapping an id-preserving update over the queue preserves the id list. -/
theorem map_id_of_update (f : Job → Job) (hf : ∀ j, (f j).id = j.id)
    (q : List Job) : (q.map f).map Job.id = q.map Job.id := by
  induction q with
  | nil => rfl
  | cons a as ih => simp [hf a, ih]

/-- markProcessing does not change the id list. -/
theorem markProcessing_map_id (i : Nat) (q : List Job) :
    (markProcessing i q).map Job.id = q.map Job.id := by
  apply map_id_of_update
  intro j
  by_cases h : j.id = i <;> simp [h]

/-- markFailed does not change the id list. -/
theorem markFailed_map_id (i : Nat) (m : String) (q : List Job) :
    (markFailed i m q).map Job.id = q.map Job.id := by
  apply map_id_of_update
  intro j
  by_cases h : j.id = i <;> simp [h]

/-- A filter that keeps every element is the identity. -/
theorem filter_eq_self_of_forall {α : Type} (p : α → Bool) (l : List α)
    (h : ∀ x ∈ l, p x = true) : l.filter p = l := by
  induction l with
  | nil => rfl
  | cons a as ih =>
    rw [List.filter_cons, if_pos (h a (List.mem_cons_self a as))]
    rw [ih (fun x hx => h x (List.mem_cons_of_mem a hx))]

/-- A map that fixes every element is the identity. -/
theorem map_eq_self_of_forall {α : Type} (f : α → α) (l : List α)
    (h : ∀ x ∈ l, f x = x) : l.map f = l := by
  induction l with
  | nil => rfl
  | cons a as ih =>
    rw [List.map_cons, h a (List.mem_cons_self a as)]
    rw [ih (fun x hx => h x (List.mem_cons_of_mem a hx))]

/-- markCompleted with an id absent from the queue changes nothing. -/
theorem markCompleted_absent (i : Nat) (q : List Job)
    (h : i ∉ q.map Job.id) : markCompleted i q = q := by
  apply filter_eq_self_of_forall
  intro x hx
  exact bne_iff_ne.mpr fun he => h (he ▸ List.mem_map_of_mem Job.id hx)

/-- markFailed with an id absent from the queue changes nothing. -/
theorem markFailed_absent (i : Nat) (m : String) (q : List Job)
    (h : i ∉ q.map Job.id) : markFailed i m q = q := by
  apply map_eq_self_of_forall
  intro x hx
  have hne : ¬ x.id = i := fun he => h (he ▸ List.mem_map_of_mem Job.id hx)
  rw [if_neg hne]

/-- On a queue with distinct ids, markCompleted removes exactly the member
carrying that id and keeps everything else in place. -/
theorem markCompleted_of_mem (q : List Job) (j : Job)
    (hnd : (q.map Job.id).Nodup) (hj : j ∈ q) :
    ∃ l1 l2, q = l1 ++ j :: l2 ∧ markCompleted j.id q = l1 ++ l2 := by
  induction q with
  | nil => cases hj
  | cons a as ih =>
    rw [List.map_cons, List.nodup_cons] at hnd
    by_cases haj : a = j
    · subst haj
      refine ⟨[], as, rfl, ?_⟩
      rw [markCompleted, List.filter_cons, if_neg (by simp)]
      rw [List.nil_append]
      apply filter_eq_self_of_forall
      intro x hx
      exact bne_iff_ne.mpr fun he => hnd.1 (he ▸ List.mem_map_of_mem Job.id hx)
    · have hjas : j ∈ as := by
        rcases List.mem_cons.mp hj with h1 | h1
        · exact absurd h1.symm haj
        · exact h1
      have haid : (a.id != j.id) = true :=
        bne_iff_ne.mpr fun he => hnd.1 (he ▸ List.mem_map_of_mem Job.id hjas)
      obtain ⟨l1, l2, hq, hfil⟩ := ih hnd.2 hjas
      refine ⟨a :: l1, l2, by rw [hq, List.cons_append], ?_⟩
      rw [markCompleted, List.filter_cons, if_pos haid, List.cons_append]
      rw [markCompleted] at hfil
      rw [hfil]

/-- The failed copy of a queue member is a member of the markFailed queue. -/
theorem markFailed_mem (q : List Job) (j : Job) (m : String) (hj : j ∈ q) :
    { j with status := JobStatus.failed, error := some m } ∈ markFailed j.id m q := by
  rw [markFailed]
  apply List.mem_map.mpr
  exact ⟨j, hj, by rw [if_pos rfl]⟩

/-- Shape of a member of a markProcessing queue: it comes from a member of the
original queue with the same id, either untouched or switched to processing. -/
theorem markProcessing_mem_shape (i : Nat) (q : List Job) (x : Job)
    (hx : x ∈ markProcessing i q) :
    ∃ y ∈ q, x.id = y.id ∧
      ((y.id ≠ i ∧ x = y) ∨
        (y.id = i ∧ x = { y with status := JobStatus.processing })) := by
  rw [markProcessing] at hx
  obtain ⟨y, hy, hxy⟩ := List.mem_map.mp hx
  by_cases hyi : y.id = i
  · rw [if_pos hyi] at hxy
    exact ⟨y, hy, by rw [← hxy], Or.inr ⟨hyi, hxy.symm⟩⟩
  · rw [if_neg hyi] at hxy
    exact ⟨y, hy, by rw [← hxy], Or.inl ⟨hyi, hxy.symm⟩⟩

/-- Shape of a member of a markFailed queue: it comes from a member of the
original queue with the same id, either untouched or switched to failed with
the recorded message. -/
theorem markFailed_mem_shape (i : Nat) (m : String) (q : List Job) (x : Job)
    (hx : x ∈ markFailed i m q) :
    ∃ y ∈ q, x.id = y.id ∧
      ((y.id ≠ i ∧ x = y) ∨
        (y.id = i ∧ x = { y with status := JobStatus.failed, error := some m })) := by
  rw [markFailed] at hx
  obtain ⟨y, hy, hxy⟩ := List.mem_map.mp hx
  by_cases hyi : y.id = i
  · rw [if_pos hyi] at hxy
    exact ⟨y, hy, by rw [← hxy], Or.inr ⟨hyi, hxy.symm⟩⟩
  · rw [if_neg hyi] at hxy
    exact ⟨y, hy, by rw [← hxy], Or.inl ⟨hyi, hxy.symm⟩⟩

/-- Enqueueing preserves the queue-engine invariant. -/
theorem inv_enqueue (s : AppState) (prompt : String) (ar : AspectRatio)
    (hs : Inv s) : Inv (handleAddToQueue prompt ar s) := by
  obtain ⟨h1, h2, h3, h4, h5, h6⟩ := hs
  refine ⟨?_, ?_, ?_, ?_, ?_, ?_⟩
  · intro hb x hx
    rcases List.mem_append.mp hx with hx1 | hx1
    · exact h1 hb x hx1
    · rw [List.mem_singleton.mp hx1]
      simp [newJob]
  · intro a ha b hb hap hbp
    rcases List.mem_append.mp ha with ha1 | ha1
    · rcases List.mem_append.mp hb with hb1 | hb1
      · exact h2 a ha1 b hb1 hap hbp
      · rw [List.mem_singleton.mp hb1] at hbp
        simp [newJob] at hbp
    · rw [List.mem_singleton.mp ha1] at hap
      simp [newJob] at hap
  · intro hb
    obtain ⟨x, hx, hxp⟩ := h3 hb
    exact ⟨x, List.mem_append_left _ hx, hxp⟩
  · show ((s.queue ++ [newJob prompt ar s]).map Job.id).Nodup
    rw [List.map_append]
    refine h4.append (by simp) ?_
    intro a ha hb
    rw [List.map_singleton, List.mem_singleton] at hb
    obtain ⟨y, hy, hya⟩ := List.mem_map.mp ha
    have := h5 y hy
    rw [hya, hb] at this
    exact absurd this (by simp [newJob])
  · intro x hx
    rcases List.mem_append.mp hx with hx1 | hx1
    · exact Nat.lt_succ_of_lt (h5 x hx1)
    · rw [List.mem_singleton.mp hx1]
      exact Nat.lt_succ_self _
  · intro x hx
    rcases List.mem_append.mp hx with hx1 | hx1
    · exact h6 x hx1
    · rw [List.mem_singleton.mp hx1]
      simp [newJob]

/-- Claiming the busy flag and marking the selected pending job preserves the
queue-engine invariant. -/
theorem inv_start (s : AppState) (j : Job) (hbusy : s.busy = false)
    (hsel : nextPendingJob s.queue = some j) (hs : Inv s) :
    Inv (startJob j.id s) := by
  obtain ⟨h1, h2, h3, h4, h5, h6⟩ := hs
  have hjm : j ∈ s.queue := nextPendingJob_mem _ _ hsel
  have hall : ∀ x ∈ markProcessing j.id s.queue,
      x.status = JobStatus.processing → x.id = j.id := by
    intro x hx hxp
    obtain ⟨y, hy, hid, hc⟩ := markProcessing_mem_shape j.id s.queue x hx
    rcases hc with ⟨hyne, rfl⟩ | ⟨hyi, rfl⟩
    · exact absurd hxp (h1 hbusy x hy)
    · rw [hid, hyi]
  refine ⟨?_, ?_, ?_, ?_, ?_, ?_⟩
  · intro hb
    simp [startJob] at hb
  · intro a ha b hb hap hbp
    rw [hall a ha hap, hall b hb hbp]
  · intro hb
    refine ⟨{ j with status := JobStatus.processing }, ?_, rfl⟩
    show _ ∈ markProcessing j.id s.queue
    rw [markProcessing]
    exact List.mem_map.mpr ⟨j, hjm, by rw [if_pos rfl]⟩
  · show ((markProcessing j.id s.queue).map Job.id).Nodup
    rw [markProcessing_map_id]
    exact h4
  · intro x hx
    obtain ⟨y, hy, hid, _⟩ := markProcessing_mem_shape j.id s.queue x hx
    rw [hid]
    exact h5 y hy
  · intro x hx
    obtain ⟨y, hy, hid, hc⟩ := markProcessing_mem_shape j.id s.queue x hx
    rcases hc with ⟨_, rfl⟩ | ⟨_, rfl⟩
    · exact h6 x hy
    · simp

/-- Folding a provider success into the state preserves the queue-engine
invariant. -/
theorem inv_success (s : AppState) (j : Job) (url : String)
    (hmem : j ∈ s.queue) (hproc : j.status = JobStatus.processing)
    (hs : Inv s) : Inv (finishJob j (Outcome.success url) s) := by
  obtain ⟨h1, h2, h3, h4, h5, h6⟩ := hs
  have hsub : ∀ x ∈ markCompleted j.id s.queue, x ∈ s.queue ∧ x.id ≠ j.id := by
    intro x hx
    rw [markCompleted] at hx
    have h := List.mem_filter.mp hx
    exact ⟨h.1, bne_iff_ne.mp h.2⟩
  refine ⟨?_, ?_, ?_, ?_, ?_, ?_⟩
  · intro _ x hx hxp
    obtain ⟨hxq, hxne⟩ := hsub x hx
    exact hxne (h2 x hxq j hmem hxp hproc)
  · intro a ha b hb hap hbp
    exact h2 a (hsub a ha).1 b (hsub b hb).1 hap hbp
  · intro hb
    exact absurd hb (by simp [finishJob])
  · show ((markCompleted j.id s.queue).map Job.id).Nodup
    exact ((List.filter_sublist s.queue).map Job.id).nodup h4
  · intro x hx
    exact Nat.lt_succ_of_lt (h5 x (hsub x hx).1)
  · intro x hx
    exact h6 x (hsub x hx).1

/-- Folding a provider failure into the state preserves the queue-engine
invariant. -/
theorem inv_markFailed (s : AppState) (j : Job) (m : String)
    (hmem : j ∈ s.queue) (hproc : j.status = JobStatus.processing)
    (hs : Inv s) :
    Inv { s with queue := markFailed j.id m s.queue, busy := false } := by
  obtain ⟨h1, h2, h3, h4, h5, h6⟩ := hs
  have hnone : ∀ x ∈ markFailed j.id m s.queue, x.status ≠ JobStatus.processing := by
    intro x hx hxp
    obtain ⟨y, hy, hid, hc⟩ := markFailed_mem_shape j.id m s.queue x hx
    rcases hc with ⟨hyne, rfl⟩ | ⟨hyi, rfl⟩
    · exact hyne (h2 x hy j hmem hxp hproc)
    · simp at hxp
  refine ⟨?_, ?_, ?_, ?_, ?_, ?_⟩
  · intro _ x hx
    exact hnone x hx
  · intro a ha b hb hap hbp
    exact absurd hap (hnone a ha)
  · intro hb
    exact absurd hb (by simp)
  · show ((markFailed j.id m s.queue).map Job.id).Nodup
    rw [markFailed_map_id]
    exact h4
  · intro x hx
    obtain ⟨y, hy, hid, _⟩ := markFailed_mem_shape j.id m s.queue x hx
    rw [hid]
    exact h5 y hy
  · intro x hx
    obtain ⟨y, hy, hid, hc⟩ := markFailed_mem_shape j.id m s.queue x hx
    rcases hc with ⟨_, rfl⟩ | ⟨_, rfl⟩
    · exact h6 x hy
    · simp

/-- Every step of the App preserves the queue-engine invariant. -/
theorem stepInv {s t : AppState} (hs : Inv s) (hst : Step s t) : Inv t := by
  cases hst with
  | enqueue prompt ar => exact inv_enqueue _ prompt ar hs
  | stageAdd files => exact hs
  | stageRemove index => exact hs
  | tickStart j hbusy hsel => exact inv_start _ j hbusy hsel hs
  | tickFinish j o hbusy hmem hproc =>
      cases o with
      | success url => exact inv_success _ j url hmem hproc hs
      | failure m => exact inv_markFailed _ j m hmem hproc hs
      | fault => exact inv_markFailed _ j "Unknown error" hmem hproc hs
  | upscale itemId newSrc => exact hs

/-- The invariant holds in any freshly mounted state. -/
theorem inv_init (g0 : List GalleryItem) : Inv (initState g0) := by
  unfold Inv initState
  refine ⟨?_, ?_, ?_, ?_, ?_, ?_⟩ <;> simp

/-- The invariant holds in every reachable state. -/
theorem reachable_inv (s : AppState) (h : Reachable s) : Inv s := by
  obtain ⟨g0, hr⟩ := h
  induction hr with
  | refl => exact inv_init g0
  | tail _ hbc ih => exact stepInv ih hbc

/-- Mapping an update over a list commutes with a projection the update
preserves. -/
theorem map_proj_of_update {α β : Type} (f : α → α) (proj : α → β)
    (hf : ∀ a, proj (f a) = proj a) (l : List α) :
    (l.map f).map proj = l.map proj := by
  induction l with
  | nil => rfl
  | cons a as ih => simp [hf a, ih]

/-- updateSrc does not change the id of any gallery item. -/
theorem updateSrc_map_id (itemId : Nat) (newSrc : String) (g : List GalleryItem) :
    (updateSrc itemId newSrc g).map GalleryItem.id = g.map GalleryItem.id := by
  rw [updateSrc]
  apply map_proj_of_update
  intro a
  by_cases h : a.id = itemId <;> simp [h]

/-- updateSrc does not change the prompt of any gallery item. -/
theorem updateSrc_map_prompt (itemId : Nat) (newSrc : String) (g : List GalleryItem) :
    (updateSrc itemId newSrc g).map GalleryItem.prompt = g.map GalleryItem.prompt := by
  rw [updateSrc]
  apply map_proj_of_update
  intro a
  by_cases h : a.id = itemId <;> simp [h]

/-- Claim C1: at every observable instant of any execution, at most one job in
the queue has status processing (any two processing members carry the same id);
while the busy flag is clear no job is processing, and while a job is in
flight no step can introduce a processing job that was not already there — a
second pending job is never moved to processing before the in-flight job
reaches a terminal outcome. -/
theorem claim_C1_single_processing (s : AppState) (hr : Reachable s) :
    (∀ j ∈ s.queue, ∀ k ∈ s.queue, j.status = JobStatus.processing →
      k.status = JobStatus.processing → j.id = k.id) ∧
    (s.busy = false → ∀ j ∈ s.queue, j.status ≠ JobStatus.processing) ∧
    (s.busy = true → ∀ t, Step s t → ∀ x ∈ t.queue,
      x.status = JobStatus.processing → x ∈ s.queue) := by
  obtain ⟨h1, h2, h3, h4, h5, h6⟩ := reachable_inv s hr
  refine ⟨h2, h1, ?_⟩
  intro hb t hst x hx hxp
  cases hst with
  | enqueue prompt ar =>
    rcases List.mem_append.mp hx with h | h
    · exact h
    · rw [List.mem_singleton.mp h] at hxp
      simp [newJob] at hxp
  | stageAdd files => exact hx
  | stageRemove index => exact hx
  | tickStart j hbusy hsel =>
    rw [hbusy] at hb
    exact Bool.noConfusion hb
  | tickFinish j o hbusy hmem hproc =>
    cases o with
    | success url =>
      have hx2 : x ∈ markCompleted j.id s.queue := hx
      rw [markCompleted] at hx2
      exact (List.mem_filter.mp hx2).1
    | failure m =>
      obtain ⟨y, hy, hid, hc⟩ := markFailed_mem_shape j.id m s.queue x hx
      rcases hc with ⟨_, rfl⟩ | ⟨_, rfl⟩
      · exact hy
      · simp at hxp
    | fault =>
      obtain ⟨y, hy, hid, hc⟩ :=
        markFailed_mem_shape j.id "Unknown error" s.queue x hx
      rcases hc with ⟨_, rfl⟩ | ⟨_, rfl⟩
      · exact hy
      · simp at hxp
  | upscale itemId newSrc => exact hx

/-- Witness for C1 at the concrete reachable state with one claimed job. -/
theorem claim_C1_witness :
    (∀ j ∈ exState2.queue, ∀ k ∈ exState2.queue, j.status = JobStatus.processing →
      k.status = JobStatus.processing → j.id = k.id) ∧
    (exState2.busy = false → ∀ j ∈ exState2.queue, j.status ≠ JobStatus.processing) ∧
    (exState2.busy = true → ∀ t, Step exState2 t → ∀ x ∈ t.queue,
      x.status = JobStatus.processing → x ∈ exState2.queue) :=
  claim_C1_single_processing exState2
    ⟨[], Relation.ReflTransGen.tail
      (Relation.ReflTransGen.tail Relation.ReflTransGen.refl
        (Step.enqueue (initState []) "A red balloon" AspectRatio.r1x1))
      (Step.tickStart exState1 exJob rfl (by decide))⟩

/-- Claim C2: enqueue appends the new pending job with a fresh unique id at the
tail of the queue, and a tick that starts a job selects the earliest-submitted
pending job — strict FIFO by insertion order, skipping every non-pending entry
(processing or failed), never by priority. -/
theorem claim_C2_fifo (s : AppState) (hr : Reachable s) (prompt : String)
    (ar : AspectRatio) (q : List Job) (j : Job)
    (hq : nextPendingJob q = some j) :
    (handleAddToQueue prompt ar s).queue = s.queue ++ [newJob prompt ar s] ∧
    (newJob prompt ar s).status = JobStatus.pending ∧
    (newJob prompt ar s).id ∉ s.queue.map Job.id ∧
    ((handleAddToQueue prompt ar s).queue.map Job.id).Nodup ∧
    j.status = JobStatus.pending ∧
    (∃ l1 l2, q = l1 ++ j :: l2 ∧ ∀ x ∈ l1, x.status ≠ JobStatus.pending) := by
  have hinv := reachable_inv s hr
  obtain ⟨h1, h2, h3, h4, h5, h6⟩ := hinv
  have hfresh : (newJob prompt ar s).id ∉ s.queue.map Job.id := by
    intro hmem
    obtain ⟨y, hy, hyid⟩ := List.mem_map.mp hmem
    have hlt := h5 y hy
    rw [hyid] at hlt
    exact absurd hlt (by simp [newJob])
  obtain ⟨hpend, hdec⟩ := nextPendingJob_spec q j hq
  exact ⟨rfl, rfl, hfresh,
    (inv_enqueue s prompt ar ⟨h1, h2, h3, h4, h5, h6⟩).2.2.2.1, hpend, hdec⟩

/-- Witness for C2: enqueue onto the one-job reachable state, and selection on
the concrete queue whose first entry is failed picks the later pending job. -/
theorem claim_C2_witness :
    (handleAddToQueue "Again" AspectRatio.r4x3 exState1).queue =
      exState1.queue ++ [newJob "Again" AspectRatio.r4x3 exState1] ∧
    (newJob "Again" AspectRatio.r4x3 exState1).status = JobStatus.pending ∧
    (newJob "Again" AspectRatio.r4x3 exState1).id ∉ exState1.queue.map Job.id ∧
    ((handleAddToQueue "Again" AspectRatio.r4x3 exState1).queue.map Job.id).Nodup ∧
    exPendingJob.status = JobStatus.pending ∧
    (∃ l1 l2, exQueue = l1 ++ exPendingJob :: l2 ∧
      ∀ x ∈ l1, x.status ≠ JobStatus.pending) :=
  claim_C2_fifo exState1
    ⟨[], Relation.ReflTransGen.tail Relation.ReflTransGen.refl
      (Step.enqueue (initState []) "A red balloon" AspectRatio.r1x1)⟩
    "Again" AspectRatio.r4x3 exQueue exPendingJob (by decide)

/-- Claim C3: when the provider call for job j succeeds with an image payload,
the processor prepends a new gallery item carrying that image and the job
prompt, removes exactly job j from the queue leaving every other entry in
place, keeps every pre-existing gallery item unchanged as the tail, and no
completed job is ever retained in any reachable queue. -/
theorem claim_C3_success (s : AppState) (j : Job) (url : String)
    (hj : j ∈ s.queue) (hnd : (s.queue.map Job.id).Nodup) :
    (∃ l1 l2, s.queue = l1 ++ j :: l2 ∧
      (finishJob j (Outcome.success url) s).queue = l1 ++ l2) ∧
    (finishJob j (Outcome.success url) s).gallery =
      { id := s.nextId, src := url, prompt := j.prompt } :: s.gallery ∧
    (∀ t, Reachable t → ∀ x ∈ t.queue, x.status ≠ JobStatus.completed) := by
  obtain ⟨l1, l2, hq, hfil⟩ := markCompleted_of_mem s.queue j hnd hj
  exact ⟨⟨l1, l2, hq, hfil⟩, rfl,
    fun t ht => (reachable_inv t ht).2.2.2.2.2⟩

/-- Witness for C3 at the concrete two-job busy state. -/
theorem claim_C3_witness :
    (∃ l1 l2, exBusyState.queue = l1 ++ exProcJob :: l2 ∧
      (finishJob exProcJob (Outcome.success "data:image/png;base64,Zm9v")
        exBusyState).queue = l1 ++ l2) ∧
    (finishJob exProcJob (Outcome.success "data:image/png;base64,Zm9v")
        exBusyState).gallery =
      { id := exBusyState.nextId, src := "data:image/png;base64,Zm9v",
        prompt := exProcJob.prompt } :: exBusyState.gallery ∧
    (∀ t, Reachable t → ∀ x ∈ t.queue, x.status ≠ JobStatus.completed) :=
  claim_C3_success exBusyState exProcJob "data:image/png;base64,Zm9v"
    (by decide) (by decide)

/-- Claim C4: when the provider call for job j fails with message m, the
processor keeps the job in the queue with status failed and error m (same
queue length, nothing removed), creates no gallery item, clears the busy flag,
selection only ever returns pending jobs so a later tick proceeds to the next
pending job and never re-selects the failed one, and no further step of the
system ever removes the failed job or moves it back to pending. -/
theorem claim_C4_failure (s : AppState) (j : Job) (m : String)
    (hj : j ∈ s.queue) (hnd : (s.queue.map Job.id).Nodup) :
    ({ j with status := JobStatus.failed, error := some m } ∈
      (finishJob j (Outcome.failure m) s).queue) ∧
    (finishJob j (Outcome.failure m) s).queue.length = s.queue.length ∧
    (finishJob j (Outcome.failure m) s).gallery = s.gallery ∧
    (finishJob j (Outcome.failure m) s).busy = false ∧
    (∀ q x, nextPendingJob q = some x → x.status = JobStatus.pending) ∧
    (∀ x, nextPendingJob (finishJob j (Outcome.failure m) s).queue = some x →
      x.status = JobStatus.pending ∧ x.id ≠ j.id) ∧
    (∀ t, Step (finishJob j (Outcome.failure m) s) t →
      { j with status := JobStatus.failed, error := some m } ∈ t.queue) := by
  have hjf : { j with status := JobStatus.failed, error := some m } ∈
      markFailed j.id m s.queue := markFailed_mem s.queue j m hj
  have hnd2 : ((markFailed j.id m s.queue).map Job.id).Nodup := by
    rw [markFailed_map_id]
    exact hnd
  refine ⟨hjf, ?_, rfl, rfl, ?_, ?_, ?_⟩
  · show (markFailed j.id m s.queue).length = s.queue.length
    rw [markFailed, List.length_map]
  · intro q x hqx
    exact (nextPendingJob_spec q x hqx).1
  · intro x hx
    have hp := (nextPendingJob_spec _ x hx).1
    have hxm : x ∈ markFailed j.id m s.queue := nextPendingJob_mem _ x hx
    obtain ⟨y, hy, hid, hc⟩ := markFailed_mem_shape j.id m s.queue x hxm
    rcases hc with ⟨hyne, rfl⟩ | ⟨hyi, rfl⟩
    · refine ⟨hp, ?_⟩
      rw [hid]
      exact hyne
    · simp at hp
  · intro t hst
    cases hst with
    | enqueue prompt ar => exact List.mem_append_left _ hjf
    | stageAdd files => exact hjf
    | stageRemove index => exact hjf
    | tickStart k hbusy hsel =>
      have hkm : k ∈ markFailed j.id m s.queue := nextPendingJob_mem _ k hsel
      have hkp := (nextPendingJob_spec _ k hsel).1
      have hne : ¬ ({ j with status := JobStatus.failed, error := some m } : Job).id = k.id := by
        intro he
        have heq := eq_of_mem_of_id_eq _ hnd2 _ _ hjf hkm he
        rw [← heq] at hkp
        simp at hkp
      exact List.mem_map.mpr ⟨_, hjf, by rw [if_neg hne]⟩
    | tickFinish k o hbusy hmem hproc => exact Bool.noConfusion hbusy
    | upscale itemId newSrc => exact hjf

/-- Witness for C4 at the concrete two-job busy state with a policy-block
message. -/
theorem claim_C4_witness :
    (exFailedProcJob ∈
      (finishJob exProcJob (Outcome.failure "Request blocked: SAFETY.")
        exBusyState).queue) ∧
    (finishJob exProcJob (Outcome.failure "Request blocked: SAFETY.")
        exBusyState).queue.length = exBusyState.queue.length ∧
    (finishJob exProcJob (Outcome.failure "Request blocked: SAFETY.")
        exBusyState).gallery = exBusyState.gallery ∧
    (finishJob exProcJob (Outcome.failure "Request blocked: SAFETY.")
        exBusyState).busy = false ∧
    (∀ q x, nextPendingJob q = some x → x.status = JobStatus.pending) ∧
    (∀ x, nextPendingJob (finishJob exProcJob
        (Outcome.failure "Request blocked: SAFETY.") exBusyState).queue = some x →
      x.status = JobStatus.pending ∧ x.id ≠ exProcJob.id) ∧
    (∀ t, Step (finishJob exProcJob (Outcome.failure "Request blocked: SAFETY.")
        exBusyState) t →
      exFailedProcJob ∈ t.queue) :=
  claim_C4_failure exBusyState exProcJob "Request blocked: SAFETY."
    (by decide) (by decide)

/-- Claim C5: on every exit path of a tick that claimed the busy flag — the
provider resolving, the provider rejecting with an Error, or a non-Error value
thrown during the call or result handling — the finally clause leaves the busy
flag false, and whenever the flag is held in a reachable state an in-flight
processing job exists whose completion will release it, so the processor is
never permanently blocked. -/
theorem claim_C5_busy_cleanup (s : AppState) (hr : Reachable s)
    (hb : s.busy = true) (j : Job) (o : Outcome) :
    (finishJob j o s).busy = false ∧
    ∃ k ∈ s.queue, k.status = JobStatus.processing := by
  refine ⟨?_, (reachable_inv s hr).2.2.1 hb⟩
  cases o with
  | success url => rfl
  | failure m => rfl
  | fault => rfl

/-- Witness for C5 at the concrete reachable busy state, with a non-Error
fault outcome. -/
theorem claim_C5_witness :
    (finishJob exJob Outcome.fault exState2).busy = false ∧
    ∃ k ∈ exState2.queue, k.status = JobStatus.processing :=
  claim_C5_busy_cleanup exState2
    ⟨[], Relation.ReflTransGen.tail
      (Relation.ReflTransGen.tail Relation.ReflTransGen.refl
        (Step.enqueue (initState []) "A red balloon" AspectRatio.r1x1))
      (Step.tickStart exState1 exJob rfl (by decide))⟩
    rfl exJob Outcome.fault

/-- Claim C6 counterexample: the core enqueue operation handleAddToQueue does
not reject an empty prompt — it creates a Job and changes the queue, so the
claim that rejection happens in the core is false at the concrete input of an
empty-prompt submission to a freshly mounted state. -/
theorem claim_C6_counterexample :
    (handleAddToQueue "" AspectRatio.r1x1 (initState [])).queue ≠
      (initState []).queue ∧
    (handleAddToQueue "" AspectRatio.r1x1 (initState [])).queue.length = 1 := by
  constructor
  · decide
  · rfl

/-- Claim C6 as amended: empty-prompt submissions are rejected in the UI layer
only — handleSubmit with a prompt whose trimmed text is empty performs no
enqueue and leaves the state unchanged, while the core handleAddToQueue itself
performs no validation and appends a Job even for an empty prompt. -/
theorem claim_C6_amended (prompt : String) (ar : AspectRatio) (isAdding : Bool)
    (s : AppState) (hempty : trimString prompt = "") :
    handleSubmit prompt ar isAdding s = s ∧
    (handleAddToQueue prompt ar s).queue = s.queue ++ [newJob prompt ar s] := by
  refine ⟨?_, rfl⟩
  rw [handleSubmit, hempty]
  simp

/-- Witness for the amended C6 on a concrete empty submission. -/
theorem claim_C6_witness :
    handleSubmit "" AspectRatio.r1x1 false (initState []) = initState [] ∧
    (handleAddToQueue "" AspectRatio.r1x1 (initState [])).queue =
      (initState []).queue ++ [newJob "" AspectRatio.r1x1 (initState [])] :=
  claim_C6_amended "" AspectRatio.r1x1 false (initState []) (by decide)

/-- Claim C7 counterexample: in the generateImage variant bundled with the App
(part_000), a request with two reference images contains only the first one —
the second image never reaches the provider request, so the claim that the
core includes every provided reference image is false at this input; the other
variant (part_001) does include both. -/
theorem claim_C7_counterexample :
    Part.image "b" ∉ multimodalPartsSingle "p" ["a", "b"] ∧
    multimodalParts "p" ["a", "b"] =
      [Part.image "a", Part.image "b", Part.text "p"] := by
  constructor
  · decide
  · rfl

/-- Claim C7 as amended: the part_001 variant of generateImage includes every
provided reference image, in order, followed by the text prompt; the variant
bundled in part_000 restricts the request to the first reference image itself
(with a console warning, so not silently), dropping the rest in the core. -/
theorem claim_C7_amended (prompt r : String) (rest : List String) :
    multimodalParts prompt (r :: rest) =
      (r :: rest).map Part.image ++ [Part.text prompt] ∧
    (∀ x ∈ r :: rest, Part.image x ∈ multimodalParts prompt (r :: rest)) ∧
    multimodalPartsSingle prompt (r :: rest) = [Part.image r, Part.text prompt] := by
  refine ⟨rfl, ?_, rfl⟩
  intro x hx
  rw [multimodalParts]
  exact List.mem_append_left _ (List.mem_map_of_mem Part.image hx)

/-- Witness for the amended C7 on a concrete two-image request. -/
theorem claim_C7_witness :
    multimodalParts "p" ("a" :: ["b"]) =
      (("a" : String) :: ["b"]).map Part.image ++ [Part.text "p"] ∧
    (∀ x ∈ ("a" : String) :: ["b"],
      Part.image x ∈ multimodalParts "p" ("a" :: ["b"])) ∧
    multimodalPartsSingle "p" ("a" :: ["b"]) = [Part.image "a", Part.text "p"] :=
  claim_C7_amended "p" "a" ["b"]

/-- Claim C8: removing a job on success (markCompleted) or recording a failure
(markFailed) for a job id that is not present in the queue is a no-op — no
error is raised and the queue sequence is exactly unchanged. -/
theorem claim_C8_idempotent_absent (i : Nat) (m : String) (q : List Job)
    (h : i ∉ q.map Job.id) :
    markCompleted i q = q ∧ markFailed i m q = q :=
  ⟨markCompleted_absent i q h, markFailed_absent i m q h⟩

/-- Witness for C8 on a concrete queue and an absent id. -/
theorem claim_C8_witness :
    markCompleted 7 exQueue = exQueue ∧
    markFailed 7 "late failure" exQueue = exQueue :=
  claim_C8_idempotent_absent 7 "late failure" exQueue (by decide)

/-- Claim C9: adding k new images when c are already staged (c at most 4)
appends exactly the first min(k, 4 - c) of them, in order, silently dropping
the excess; the staged count never exceeds 4 after an add, and a job enqueued
afterward captures exactly the currently staged images (at most 4). -/
theorem claim_C9_staging_cap (files images : List String)
    (hc : images.length ≤ 4) (prompt : String) (ar : AspectRatio)
    (s : AppState) (hst : s.referenceImages = handleImageUpload files images) :
    handleImageUpload files images =
      images ++ files.take (MAX_IMAGES - images.length) ∧
    (files.take (MAX_IMAGES - images.length)).length =
      min files.length (MAX_IMAGES - images.length) ∧
    (handleImageUpload files images).length =
      images.length + min files.length (MAX_IMAGES - images.length) ∧
    (handleImageUpload files images).length ≤ 4 ∧
    (handleAddToQueue prompt ar s).queue = s.queue ++ [newJob prompt ar s] ∧
    (newJob prompt ar s).referenceImages = s.referenceImages ∧
    (newJob prompt ar s).referenceImages.length ≤ 4 := by
  have htake : (files.take (MAX_IMAGES - images.length)).length =
      min files.length (MAX_IMAGES - images.length) := by
    rw [List.length_take, Nat.min_comm]
  have hlen : (handleImageUpload files images).length =
      images.length + min files.length (MAX_IMAGES - images.length) := by
    rw [handleImageUpload, List.length_append, htake]
  have hcap : (handleImageUpload files images).length ≤ 4 := by
    rw [hlen]
    calc images.length + min files.length (MAX_IMAGES - images.length)
        ≤ images.length + (MAX_IMAGES - images.length) :=
          Nat.add_le_add_left (Nat.min_le_right _ _) _
      _ = MAX_IMAGES := Nat.add_sub_cancel' hc
      _ ≤ 4 := Nat.le_refl 4
  refine ⟨rfl, htake, hlen, hcap, rfl, rfl, ?_⟩
  show s.referenceImages.length ≤ 4
  rw [hst]
  exact hcap

/-- Witness for C9: five files added to empty staging yield four staged images
and the enqueued job captures those four. -/
theorem claim_C9_witness :
    handleImageUpload ["f1", "f2", "f3", "f4", "f5"] [] =
      [] ++ (["f1", "f2", "f3", "f4", "f5"].take (MAX_IMAGES - List.length ([] : List String))) ∧
    ((["f1", "f2", "f3", "f4", "f5"].take (MAX_IMAGES - List.length ([] : List String)))).length =
      min (List.length ["f1", "f2", "f3", "f4", "f5"]) (MAX_IMAGES - List.length ([] : List String)) ∧
    (handleImageUpload ["f1", "f2", "f3", "f4", "f5"] []).length =
      List.length ([] : List String) +
        min (List.length ["f1", "f2", "f3", "f4", "f5"]) (MAX_IMAGES - List.length ([] : List String)) ∧
    (handleImageUpload ["f1", "f2", "f3", "f4", "f5"] []).length ≤ 4 ∧
    (handleAddToQueue "collage" AspectRatio.r3x4
        (stageAddImages ["f1", "f2", "f3", "f4", "f5"] (initState []))).queue =
      (stageAddImages ["f1", "f2", "f3", "f4", "f5"] (initState [])).queue ++
        [newJob "collage" AspectRatio.r3x4
          (stageAddImages ["f1", "f2", "f3", "f4", "f5"] (initState []))] ∧
    (newJob "collage" AspectRatio.r3x4
        (stageAddImages ["f1", "f2", "f3", "f4", "f5"] (initState []))).referenceImages =
      (stageAddImages ["f1", "f2", "f3", "f4", "f5"] (initState [])).referenceImages ∧
    (newJob "collage" AspectRatio.r3x4
        (stageAddImages ["f1", "f2", "f3", "f4", "f5"]
          (initState []))).referenceImages.length ≤ 4 :=
  claim_C9_staging_cap ["f1", "f2", "f3", "f4", "f5"] [] (by decide)
    "collage" AspectRatio.r3x4
    (stageAddImages ["f1", "f2", "f3", "f4", "f5"] (initState [])) rfl

/-- Claim C10: the upscale apply changes at most the src field of the gallery
item whose id matches — the queue, busy flag and staging are untouched, every
gallery item keeps its id and prompt, every non-matching item is completely
unchanged, and when no gallery item carries the id the gallery is exactly
unchanged. -/
theorem claim_C10_upscale_frame (itemId : Nat) (newSrc : String) (s : AppState) :
    (handleUpscaleImage itemId newSrc s).queue = s.queue ∧
    (handleUpscaleImage itemId newSrc s).busy = s.busy ∧
    (handleUpscaleImage itemId newSrc s).referenceImages = s.referenceImages ∧
    (handleUpscaleImage itemId newSrc s).gallery.map GalleryItem.id =
      s.gallery.map GalleryItem.id ∧
    (handleUpscaleImage itemId newSrc s).gallery.map GalleryItem.prompt =
      s.gallery.map GalleryItem.prompt ∧
    (∀ g ∈ s.gallery, g.id ≠ itemId →
      g ∈ (handleUpscaleImage itemId newSrc s).gallery) ∧
    (itemId ∉ s.gallery.map GalleryItem.id →
      (handleUpscaleImage itemId newSrc s).gallery = s.gallery) := by
  refine ⟨rfl, rfl, rfl, updateSrc_map_id itemId newSrc s.gallery,
    updateSrc_map_prompt itemId newSrc s.gallery, ?_, ?_⟩
  · intro g hg hne
    show g ∈ updateSrc itemId newSrc s.gallery
    rw [updateSrc]
    exact List.mem_map.mpr ⟨g, hg, by rw [if_neg hne]⟩
  · intro habs
    show updateSrc itemId newSrc s.gallery = s.gallery
    rw [updateSrc]
    apply map_eq_self_of_forall
    intro x hx
    have hne : ¬ x.id = itemId :=
      fun he => habs (he ▸ List.mem_map_of_mem GalleryItem.id hx)
    rw [if_neg hne]

/-- Witness for C10 at a concrete state with one gallery item and an absent
target id. -/
theorem claim_C10_witness :
    (handleUpscaleImage 99 "data:image/png;base64,dXA="
        (initState [{ id := 0, src := "s0", prompt := "p0" }])).queue =
      (initState [{ id := 0, src := "s0", prompt := "p0" }]).queue ∧
    (handleUpscaleImage 99 "data:image/png;base64,dXA="
        (initState [{ id := 0, src := "s0", prompt := "p0" }])).busy =
      (initState [{ id := 0, src := "s0", prompt := "p0" }]).busy ∧
    (handleUpscaleImage 99 "data:image/png;base64,dXA="
        (initState [{ id := 0, src := "s0", prompt := "p0" }])).referenceImages =
      (initState [{ id := 0, src := "s0", prompt := "p0" }]).referenceImages ∧
    (handleUpscaleImage 99 "data:image/png;base64,dXA="
        (initState [{ id := 0, src := "s0", prompt := "p0" }])).gallery.map
        GalleryItem.id =
      (initState [{ id := 0, src := "s0", prompt := "p0" }]).gallery.map
        GalleryItem.id ∧
    (handleUpscaleImage 99 "data:image/png;base64,dXA="
        (initState [{ id := 0, src := "s0", prompt := "p0" }])).gallery.map
        GalleryItem.prompt =
      (initState [{ id := 0, src := "s0", prompt := "p0" }]).gallery.map
        GalleryItem.prompt ∧
    (∀ g ∈ (initState [{ id := 0, src := "s0", prompt := "p0" }]).gallery,
      g.id ≠ 99 →
      g ∈ (handleUpscaleImage 99 "data:image/png;base64,dXA="
        (initState [{ id := 0, src := "s0", prompt := "p0" }])).gallery) ∧
    (99 ∉ (initState [{ id := 0, src := "s0", prompt := "p0" }]).gallery.map
        GalleryItem.id →
      (handleUpscaleImage 99 "data:image/png;base64,dXA="
        (initState [{ id := 0, src := "s0", prompt := "p0" }])).gallery =
      (initState [{ id := 0, src := "s0", prompt := "p0" }]).gallery) :=
  claim_C10_upscale_frame 99 "data:image/png;base64,dXA="
    (initState [{ id := 0, src := "s0", prompt := "p0" }])

end NanoBanana
